import Mathlib

/-
Shallow embedding of the waitimes kiosk application.

Source files embedded here:
  * src/models/ride.py        -- Ride, Park, ClosedPark, WaitTimesData
  * src/api/queue_times.py    -- QueueTimesClient.fetch_all_parks and its cache
  * src/events/scheduler.py   -- ScheduledEvent, EventScheduler
  * src/themes/images.py      -- ImageManager cycle counters
  * src/display/renderer.py   -- RideDisplay rotation / transition state machine

Modelling conventions:
  * Python floats (frame deltas, timers, progress values) are modelled as
    exact rationals; the properties proved here concern exact arithmetic
    (adding 0, comparisons against constants), which IEEE doubles perform
    exactly at these magnitudes.
  * A wall-clock datetime is a rational number of seconds since an epoch;
    the calendar date of an instant t is day number ⌊t / 86400⌋ and
    datetime.combine(t.date(), tod) is 86400 * ⌊t / 86400⌋ + tod.
  * Python dicts are insertion-ordered, so a dict is a list of key/value
    pairs in insertion order.
  * Rendered pygame surfaces are identified with the display item they
    were rendered from; the particle animation drivers are abstracted to
    the trace of (dt, elapsed) update calls they receive, since no claim
    constrains their internals.
-/

/-! ## Data model (src/models/ride.py) -/

structure Ride where
  id : ℤ
  name : String
  wait_time : ℤ
  is_open : Bool
  park_id : ℤ
  park_name : String
deriving DecidableEq, Repr

structure Park where
  id : ℤ
  name : String
  slug : String
  rides : List Ride
deriving DecidableEq, Repr

/-- Python: `[r for r in self.rides if r.is_open and r.wait_time > 0]`. -/
def Park.open_rides (p : Park) : List Ride :=
  p.rides.filter (fun r => r.is_open && decide (0 < r.wait_time))

structure ClosedPark where
  name : String
  slug : String
  opens_at : Option String := none
deriving DecidableEq, Repr

/-- TEST_CLOSED_PARKS from src/models/ride.py (empty in normal operation). -/
def TEST_CLOSED_PARKS : List String := []

structure WaitTimesData where
  parks : List (String × Park) := []
  last_fetch : Option ℚ := none
  fetch_success : Bool := false
  error_message : Option String := none
deriving DecidableEq, Repr

/-- Code-point lexicographic comparison of character lists, the order Python
uses to compare `str` values. -/
def strLt : List Char → List Char → Bool
  | [], [] => false
  | [], _ :: _ => true
  | _ :: _, [] => false
  | a :: as, b :: bs => if a = b then strLt as bs else decide (a.val < b.val)

/-- Python string comparison `a < b`. -/
def pyStrLt (a b : String) : Bool := strLt a.toList b.toList

/-- Non-strict order corresponding to the Python sort key
`(r.park_name, -r.wait_time)`: `a` precedes-or-ties `b` iff the key of `a`
is ≤ the key of `b` lexicographically. -/
def rideKeyLE (a b : Ride) : Prop :=
  (pyStrLt a.park_name b.park_name ||
    (a.park_name == b.park_name && decide (b.wait_time ≤ a.wait_time))) = true

instance : DecidableRel rideKeyLE := fun a b => by unfold rideKeyLE; infer_instance

/-- Python: collect `park.open_rides` over `self.parks.values()` and
`sorted(rides, key=lambda r: (r.park_name, -r.wait_time))`.  Python `sorted`
is a stable sort by that key; insertion sort is stable for the same
non-strict key order, and any two stable sorts of a list under the same
total preorder produce the same output list. -/
def WaitTimesData.all_open_rides (d : WaitTimesData) : List Ride :=
  List.insertionSort rideKeyLE ((d.parks.map (fun sp => sp.2.open_rides)).flatten)

/-- Python: `age = datetime.now() - self.last_fetch;
age.total_seconds() > 900`, and `True` when `last_fetch is None`. -/
def WaitTimesData.is_stale (d : WaitTimesData) (now : ℚ) : Bool :=
  match d.last_fetch with
  | none => true
  | some t => decide (900 < now - t)

/-- Python `int(x)` truncates toward zero; on an exact rational this is
`num.tdiv den`. -/
def pyInt (q : ℚ) : ℤ := q.num.tdiv q.den

/-- Python: `int(age.total_seconds() / 60)`, and `-1` when
`last_fetch is None`. -/
def WaitTimesData.age_minutes (d : WaitTimesData) (now : ℚ) : ℤ :=
  match d.last_fetch with
  | none => -1
  | some t => pyInt ((now - t) / 60)

/-- The `default_opens` dict in `WaitTimesData.closed_parks`, with its
`.get(slug, "9:00 AM")` fallback. -/
def default_opens (slug : String) : String :=
  if slug = "magic_kingdom" then "9:00 AM"
  else if slug = "epcot" then "9:00 AM"
  else if slug = "hollywood_studios" then "8:30 AM"
  else if slug = "animal_kingdom" then "8:00 AM"
  else "9:00 AM"

/-- Python: a ClosedPark for every park with `not park.open_rides` (or slug
listed in TEST_CLOSED_PARKS). -/
def WaitTimesData.closed_parks (d : WaitTimesData) : List ClosedPark :=
  d.parks.filterMap (fun sp =>
    if sp.2.open_rides.isEmpty || TEST_CLOSED_PARKS.contains sp.1 then
      some { name := sp.2.name, slug := sp.1, opens_at := some (default_opens sp.1) }
    else none)

/-- Tagged union for the duck-typed display queue of Rides and ClosedParks. -/
inductive DisplayItem where
  | ride (r : Ride)
  | closedPark (p : ClosedPark)
deriving DecidableEq, Repr

/-- The slug lookup inside `get_display_items`: first park (in dict order)
whose name equals the ride's `park_name`. -/
def WaitTimesData.findParkSlug (d : WaitTimesData) (pname : String) : Option String :=
  (d.parks.find? (fun sp => sp.2.name == pname)).map (fun sp => sp.1)

/-- Python `get_display_items`: all open rides whose park is not
test-closed, then the closed parks. -/
def WaitTimesData.get_display_items (d : WaitTimesData) : List DisplayItem :=
  (d.all_open_rides.filterMap (fun r =>
    let park_slug := d.findParkSlug r.park_name
    if (park_slug.elim false TEST_CLOSED_PARKS.contains) then none
    else some (DisplayItem.ride r)))
  ++ d.closed_parks.map DisplayItem.closedPark

/-! ## Event scheduler (src/events/scheduler.py) -/

inductive EventType where
  | fireworks
  | parade
deriving DecidableEq, Repr

structure ScheduledEvent where
  event_type : EventType
  park_name : String
  park_slug : String
  start_time : ℚ          -- datetime.time as seconds after midnight
  duration_seconds : ℤ
deriving DecidableEq, Repr

/-- Python `check_time.date()` as the first instant of that calendar day. -/
def dayStart (t : ℚ) : ℚ := 86400 * (⌊t / 86400⌋ : ℤ)

/-- Python `datetime.combine(check_time.date(), tod)`. -/
def combineDate (t tod : ℚ) : ℚ := dayStart t + tod

/-- Python `is_active_at`: `event_start <= check_time < event_end` with
`event_start = datetime.combine(check_time.date(), self.start_time)` and
`event_end = event_start + timedelta(seconds=self.duration_seconds)`. -/
def ScheduledEvent.is_active_at (e : ScheduledEvent) (check_time : ℚ) : Bool :=
  let event_start := combineDate check_time e.start_time
  let event_end := event_start + (e.duration_seconds : ℚ)
  decide (event_start ≤ check_time) && decide (check_time < event_end)

def digitVal (c : Char) : ℕ := c.toNat - '0'.toNat

/-- The two-digit-hour alternative of `re.match(r"(\d{1,2}):(\d{2})", s)`
(the greedy first attempt of `\d{1,2}`): succeeds iff the string begins
`DD:DD`.  `re.match` anchors only at the start, so anything may follow. -/
def matchTwoDigitHour : List Char → Option (ℕ × ℕ)
  | a :: b :: c :: d :: e :: _ =>
    if a.isDigit && b.isDigit && (c == ':') && d.isDigit && e.isDigit then
      some (10 * digitVal a + digitVal b, 10 * digitVal d + digitVal e)
    else none
  | _ => none

/-- The one-digit-hour alternative tried on backtracking: the string begins
`D:DD`. -/
def matchOneDigitHour : List Char → Option (ℕ × ℕ)
  | a :: c :: d :: e :: _ =>
    if a.isDigit && (c == ':') && d.isDigit && e.isDigit then
      some (digitVal a, 10 * digitVal d + digitVal e)
    else none
  | _ => none

/-- `re.match(r"(\d{1,2}):(\d{2})", s)`: greedy two-digit hour first, then
backtrack to one digit. -/
def regexMatchHM (cs : List Char) : Option (ℕ × ℕ) :=
  (matchTwoDigitHour cs).orElse (fun _ => matchOneDigitHour cs)

/-- Python `EventScheduler._parse_time`: regex match, then range check
`0 <= hour <= 23 and 0 <= minute <= 59`; `None` otherwise. -/
def parse_time (s : String) : Option (ℕ × ℕ) :=
  match regexMatchHM s.toList with
  | some (h, m) => if h ≤ 23 && m ≤ 59 then some (h, m) else none
  | none => none

/-- A `datetime.time(hour, minute)` as seconds after midnight. -/
def timeOfDay (h m : ℕ) : ℚ := 3600 * (h : ℚ) + 60 * (m : ℚ)

/-- PARK_MAPPING from src/events/scheduler.py: config key ↦ (name, slug). -/
def PARK_MAPPING : List (String × String × String) :=
  [("magic_kingdom", "Magic Kingdom", "magic-kingdom"),
   ("epcot", "EPCOT", "epcot"),
   ("hollywood_studios", "Hollywood Studios", "hollywood-studios"),
   ("animal_kingdom", "Animal Kingdom", "animal-kingdom")]

/-- One event kind's section of the events config:
`{enabled, duration, schedule: {park_key: [time_strings]}}`.
`duration := none` stands for an absent "duration" key. -/
structure EventKindConfig where
  enabled : Bool := false
  duration : Option ℤ := none
  schedule : List (String × List String) := []

/-- The parsing loop `_parse_config` runs for one event kind: skip if not
enabled, default the duration, drop unknown park keys with a warning, drop
invalid time strings with a warning. -/
def parseKind (etype : EventType) (defaultDuration : ℤ)
    (cfg : EventKindConfig) : List ScheduledEvent :=
  if cfg.enabled then
    let duration := cfg.duration.getD defaultDuration
    (cfg.schedule.map (fun pt =>
      match PARK_MAPPING.find? (fun m => m.1 == pt.1) with
      | none => []
      | some m =>
        pt.2.filterMap (fun time_str =>
          (parse_time time_str).map (fun hm =>
            { event_type := etype, park_name := m.2.1, park_slug := m.2.2,
              start_time := timeOfDay hm.1 hm.2,
              duration_seconds := duration })))).flatten
  else []

/-- Python `_parse_config`: fireworks (default duration 240 s) then parades
(default duration 120 s); a missing config section is an empty dict. -/
def parse_config (fireworks parades : EventKindConfig) : List ScheduledEvent :=
  parseKind EventType.fireworks 240 fireworks ++ parseKind EventType.parade 120 parades

/-- Python `EventScheduler.get_active_event`: linear scan of `self.events`,
returning the first event active at `check_time`. -/
def get_active_event (events : List ScheduledEvent) (check_time : ℚ) :
    Option ScheduledEvent :=
  events.find? (fun e => e.is_active_at check_time)

/-! ## Image cycling (src/themes/images.py) -/

/-- One folder's entry in `ImageManager._cycle_index` / `_image_cache`:
`counter` is the cycle index, `num_images` the number of cached images
(`0` when the folder's image list is empty). -/
structure CycleEntry where
  folder : String
  counter : ℕ
  num_images : ℕ
deriving DecidableEq, Repr

abbrev ImageManager := List CycleEntry

/-- Python `advance_all_cycles`: for every folder with a nonempty cached
image list, `cycle[folder] = (cycle[folder] + 1) % num_images`. -/
def advance_all_cycles (m : ImageManager) : ImageManager :=
  m.map (fun e =>
    if 0 < e.num_images then { e with counter := (e.counter + 1) % e.num_images }
    else e)

/-! ## Queue-times client (src/api/queue_times.py) -/

/-- The iteration order of `WDW_PARKS`. -/
def WDW_PARK_SLUGS : List String :=
  ["magic_kingdom", "epcot", "hollywood_studios", "animal_kingdom"]

structure QueueTimesClient where
  cache : Option WaitTimesData := none
deriving DecidableEq, Repr

/-- The fetch loop of `fetch_all_parks` before the cache logic, with the
per-park network outcomes supplied as an oracle (`none` = that park's fetch
failed): parks that succeed are inserted in iteration order,
`fetch_success = success_count > 0`, and the error message is set exactly
on total failure. -/
def fetch_attempt (results : String → Option Park) (now : ℚ) : WaitTimesData :=
  let parks := WDW_PARK_SLUGS.filterMap (fun slug =>
    (results slug).map (fun p => (slug, p)))
  let success := decide (0 < parks.length)
  { parks := parks, last_fetch := some now, fetch_success := success,
    error_message :=
      if success then none else some "Failed to fetch data from all parks" }

/-- Python `fetch_all_parks`: on success cache and return the new snapshot;
on total failure return the cached snapshot unchanged when one exists
(leaving the cache untouched), else the failed attempt itself. -/
def fetch_all_parks (c : QueueTimesClient) (results : String → Option Park)
    (now : ℚ) : WaitTimesData × QueueTimesClient :=
  let result := fetch_attempt results now
  if result.fetch_success then (result, { cache := some result })
  else
    match c.cache with
    | some cached => (cached, c)
    | none => (result, c)

/-! ## Rotation / display state machine (src/display/renderer.py) -/

def STATUS_WARNING : ℕ × ℕ × ℕ := (255, 193, 7)

def STATUS_ERROR : ℕ × ℕ × ℕ := (220, 53, 69)

structure DisplayConfig where
  width : ℕ := 800
  height : ℕ := 480
  fullscreen : Bool := false
  fps : ℕ := 30
  display_duration : ℚ := 8
  transition_duration : ℚ := 1 / 2
deriving DecidableEq, Repr

/-- Mutable state of `RideDisplay` relevant to rotation, transitions,
events, freshness and image cycling.  `anim_trace` abstracts the three
animation drivers to the `(dt, elapsed)` calls they have received since
their last reset; `prev_surface`/`next_surface` hold the item each snapshot
surface was rendered from. -/
structure RideDisplay where
  config : DisplayConfig := {}
  rides : List Ride := []
  display_items : List DisplayItem := []
  current_index : ℕ := 0
  time_on_current : ℚ := 0
  last_data_update : Option ℚ := none
  data_is_stale : Bool := false
  last_error : Option String := none
  transitioning : Bool := false
  transition_progress : ℚ := 0
  prev_surface : Option DisplayItem := none
  next_surface : Option DisplayItem := none
  event_scheduler : Option (List ScheduledEvent) := none
  active_event : Option ScheduledEvent := none
  event_start_time : ℚ := 0
  image_manager : Option ImageManager := none
  anim_trace : List (ℚ × ℚ) := []
deriving DecidableEq, Repr

/-- The freshly constructed display (`__init__`). -/
def RideDisplay.initial (cfg : DisplayConfig) : RideDisplay := { config := cfg }

/-- Python `set_rides`: replace the queue, clamp an out-of-bounds index to
0, and refresh the freshness/error fields from the snapshot. -/
def RideDisplay.set_rides (s : RideDisplay) (d : WaitTimesData) (now : ℚ) :
    RideDisplay :=
  let items := d.get_display_items
  { s with
    rides := d.all_open_rides
    display_items := items
    current_index := if items.length ≤ s.current_index then 0 else s.current_index
    last_data_update := d.last_fetch
    data_is_stale := d.is_stale now
    last_error := if d.fetch_success then none else d.error_message }

/-- Python `set_event_scheduler` (fresh animation drivers, no videos). -/
def RideDisplay.set_event_scheduler (s : RideDisplay)
    (events : List ScheduledEvent) : RideDisplay :=
  { s with event_scheduler := some events, anim_trace := [] }

/-- Python `_get_data_age_minutes`. -/
def RideDisplay.get_data_age_minutes (s : RideDisplay) (now : ℚ) : ℤ :=
  match s.last_data_update with
  | none => -1
  | some t => pyInt ((now - t) / 60)

/-- Python truthiness of `self.last_error` (an `Optional[str]`): false for
`None` and for the empty string. -/
def pyTruthyStr : Option String → Bool
  | none => false
  | some st => !(st == "")

/-- The warning badge drawn by `_render_status_indicator`: its fill color
and the numeric minute count it shows (the on-screen text is
`f"{age_minutes}m"`; no text is drawn when `age_minutes <= 0`). -/
structure Badge where
  color : ℕ × ℕ × ℕ
  age_label : Option ℤ
deriving DecidableEq, Repr

/-- Python `_render_status_indicator`: draw nothing unless
`age_minutes > 10 or self.last_error`; error color iff `self.last_error`
is truthy, else warning color; the age text only when `age_minutes > 0`. -/
def RideDisplay.render_status_indicator (s : RideDisplay) (now : ℚ) :
    Option Badge :=
  let age := s.get_data_age_minutes now
  if decide (10 < age) || pyTruthyStr s.last_error then
    some { color := if pyTruthyStr s.last_error then STATUS_ERROR else STATUS_WARNING,
           age_label := if decide (0 < age) then some age else none }
  else none

/-- Python `_start_transition`: no-op on a queue of length ≤ 1; otherwise
snapshot the current card, advance the index modulo the queue length,
advance every image cycle when the index wraps to 0, and snapshot the new
card. -/
def RideDisplay.start_transition (s : RideDisplay) : RideDisplay :=
  if s.display_items.length ≤ 1 then s
  else
    let s1 := { s with transitioning := true, transition_progress := 0,
                       prev_surface := s.display_items.get? s.current_index }
    let idx := (s1.current_index + 1) % s1.display_items.length
    let s2 := { s1 with current_index := idx }
    let s3 :=
      if idx = 0 && s2.image_manager.isSome then
        { s2 with image_manager := s2.image_manager.map advance_all_cycles }
      else s2
    { s3 with next_surface := s3.display_items.get? idx }

/-- Python `_update_transition`: `progress += dt / transition_duration`;
at `progress >= 1.0` drop both snapshots and leave `TRANSITIONING`. -/
def RideDisplay.update_transition (s : RideDisplay) (dt : ℚ) : RideDisplay :=
  if !s.transitioning then s
  else
    let p := s.transition_progress + dt / s.config.transition_duration
    if 1 ≤ p then
      { s with transitioning := false, transition_progress := 0,
               prev_surface := none, next_surface := none }
    else { s with transition_progress := p }

/-- Wall-clock inputs of one `update` call: `datetime.now()` and
`time.time()` for the same instant. -/
structure TickEnv where
  now : ℚ
  wall : ℚ
deriving DecidableEq, Repr

/-- First statement of `update`: recompute `data_is_stale` when a data
timestamp exists. -/
def RideDisplay.refresh_staleness (s : RideDisplay) (env : TickEnv) : RideDisplay :=
  match s.last_data_update with
  | some t => { s with data_is_stale := decide (900 < env.now - t) }
  | none => s

/-- The event edge detection block of `update` (skipped entirely when no
scheduler is set): on an event starting, record it with the wall-clock
start time and reset the animation drivers; on the active event ending,
clear it. -/
def RideDisplay.event_edges (s : RideDisplay) (env : TickEnv) : RideDisplay :=
  match s.event_scheduler with
  | none => s
  | some events =>
    match get_active_event events env.now, s.active_event with
    | some e, none =>
      { s with active_event := some e, event_start_time := env.wall,
               anim_trace := [] }
    | none, some _ => { s with active_event := none, event_start_time := 0 }
    | _, _ => s

/-- The tail of `update` on the no-active-event path: advance a running
transition, else accumulate dwell time and start a transition when the
dwell counter reaches `display_duration`. -/
def RideDisplay.rotation_advance (s : RideDisplay) (dt : ℚ) : RideDisplay :=
  if s.transitioning then s.update_transition dt
  else
    let t := s.time_on_current + dt
    if s.config.display_duration ≤ t then
      RideDisplay.start_transition { s with time_on_current := 0 }
    else { s with time_on_current := t }

/-- Python `update(dt)`: staleness refresh, event edge detection, then
either drive the active event's animation with elapsed-since-event-start
time (skipping rotation entirely), or advance normal rotation. -/
def RideDisplay.update (s : RideDisplay) (dt : ℚ) (env : TickEnv) : RideDisplay :=
  let s1 := (s.refresh_staleness env).event_edges env
  match s1.active_event with
  | some _ =>
    { s1 with anim_trace := (dt, env.wall - s1.event_start_time) :: s1.anim_trace }
  | none => s1.rotation_advance dt

/-! ## Predicates and fixtures used by the verification -/

/-- The cache of a `QueueTimesClient` only ever holds snapshots whose
`fetch_success` flag is true (it is written exclusively on success). -/
def cacheOnlySuccessful (c : QueueTimesClient) : Prop :=
  ∀ x, c.cache = some x → x.fetch_success = true

/-- Invariant maintained by every operation of `RideDisplay`: a running
transition has progress < 1, the dwell accumulator is below the configured
dwell duration, and the dwell duration is positive. -/
def RotationInv (s : RideDisplay) : Prop :=
  (s.transitioning = true → s.transition_progress < 1) ∧
  s.time_on_current < s.config.display_duration ∧
  0 < s.config.display_duration

/-- Reachable states of the display: constructed with a positive dwell
duration (default 8.0 s), then evolved by ticks, snapshot replacements and
scheduler installation. -/
inductive Reachable : RideDisplay → Prop where
  | init (cfg : DisplayConfig) (hd : 0 < cfg.display_duration) :
      Reachable (RideDisplay.initial cfg)
  | update {s : RideDisplay} (dt : ℚ) (env : TickEnv) :
      Reachable s → Reachable (s.update dt env)
  | set_rides {s : RideDisplay} (d : WaitTimesData) (now : ℚ) :
      Reachable s → Reachable (s.set_rides d now)
  | set_event_scheduler {s : RideDisplay} (events : List ScheduledEvent) :
      Reachable s → Reachable (s.set_event_scheduler events)

/-- The scheduler reports an active event on this tick (inside the
`if self.event_scheduler:` guard; with no scheduler installed, the stored
`active_event` alone decides the branch taken by `update`). -/
def eventActiveNow (s : RideDisplay) (env : TickEnv) : Prop :=
  match s.event_scheduler with
  | some events => (get_active_event events env.now).isSome = true
  | none => s.active_event.isSome = true

/-- No event is stored and none is reported by the scheduler on this tick. -/
def noEventNow (s : RideDisplay) (env : TickEnv) : Prop :=
  s.active_event = none ∧
  ∀ events, s.event_scheduler = some events →
    get_active_event events env.now = none

/-- Modelled from the spec's words "validate the time string matches
24-hour HH:MM (hour 0-23, minute 0-59)": the whole string is an HH:MM (or
H:MM) form whose values are in range.  Used only to compare the spec's
acceptance set with the parser's. -/
def matchesSpecHHMM (s : String) : Bool :=
  match s.toList with
  | [a, b, c, d, e] =>
    a.isDigit && b.isDigit && (c == ':') && d.isDigit && e.isDigit &&
      decide (10 * digitVal a + digitVal b ≤ 23) &&
      decide (10 * digitVal d + digitVal e ≤ 59)
  | [a, c, d, e] =>
    a.isDigit && (c == ':') && d.isDigit && e.isDigit &&
      decide (10 * digitVal d + digitVal e ≤ 59)
  | _ => false

/-- Fixture: Space Mountain, 45 min, open (spec §8 scenario). -/
def spaceMountain : Ride :=
  { id := 1, name := "Space Mountain", wait_time := 45, is_open := true,
    park_id := 6, park_name := "Magic Kingdom" }

/-- Fixture: Jungle Cruise, walk-on (wait 0), open (spec §8 scenario). -/
def jungleCruise : Ride :=
  { id := 2, name := "Jungle Cruise", wait_time := 0, is_open := true,
    park_id := 6, park_name := "Magic Kingdom" }

/-- Fixture: Magic Kingdom with the two scenario rides. -/
def magicKingdomPark : Park :=
  { id := 6, name := "Magic Kingdom", slug := "magic_kingdom",
    rides := [spaceMountain, jungleCruise] }

/-- Fixture: EPCOT with no open rides. -/
def epcotPark : Park :=
  { id := 5, name := "EPCOT", slug := "epcot", rides := [] }

/-- Fixture: the spec §8 display-queue scenario snapshot. -/
def scenarioSnapshot : WaitTimesData :=
  { parks := [("magic_kingdom", magicKingdomPark), ("epcot", epcotPark)],
    last_fetch := some 0, fetch_success := true }

/-- Fixture: an event starting 22:00 (79200 s after midnight) lasting
3700 s, the spec's cross-midnight example. -/
def lateNightEvent : ScheduledEvent :=
  { event_type := EventType.fireworks, park_name := "Magic Kingdom",
    park_slug := "magic-kingdom", start_time := 79200,
    duration_seconds := 3700 }

/-- Fixture: a one-folder image manager with three cached images. -/
def lapDemoManager : ImageManager :=
  [{ folder := "space_mountain", counter := 0, num_images := 3 }]

/-- Fixture: a two-card display (one ride, one closed park) at index 0
with the demo image manager, for the full-lap witness. -/
def lapDemoDisplay : RideDisplay :=
  { display_items :=
      [DisplayItem.ride spaceMountain,
       DisplayItem.closedPark { name := "EPCOT", slug := "epcot", opens_at := some "9:00 AM" }],
    image_manager := some lapDemoManager }

/-- Fixture: a parade event used to populate demo display states. -/
def demoParade : ScheduledEvent :=
  { event_type := EventType.parade, park_name := "Magic Kingdom",
    park_slug := "magic-kingdom", start_time := 0, duration_seconds := 120 }

/-- Fixture: a display with an injected active event and no scheduler
(the `--test-event` style of injection). -/
def eventDemoNoSched : RideDisplay :=
  { active_event := some demoParade }

/-- Fixture: a display holding an active event whose scheduler no longer
reports anything active (the event-end tick). -/
def eventDemoEnding : RideDisplay :=
  { event_scheduler := some [], active_event := some demoParade,
    event_start_time := 3, time_on_current := 5 }

/-- Fixture: a single-card queue for the static-display witness. -/
def singleItemDisplay : RideDisplay :=
  { display_items := [DisplayItem.ride spaceMountain] }

/-- Fixture: freshness scenario display — data fetched at t = 0, last
fetch failed with the client's error message. -/
def staleDisplay : RideDisplay :=
  { last_data_update := some 0,
    last_error := some "Failed to fetch data from all parks" }

/-- Fixture: freshness scenario snapshot fetched at t = 0. -/
def staleSnapshot : WaitTimesData := { last_fetch := some 0 }

/-- Fixture: overlapping events for the tie-break witness. -/
def overlapEventA : ScheduledEvent :=
  { event_type := EventType.fireworks, park_name := "Magic Kingdom",
    park_slug := "magic-kingdom", start_time := 0, duration_seconds := 100 }

/-- Fixture: second overlapping event. -/
def overlapEventB : ScheduledEvent :=
  { event_type := EventType.parade, park_name := "EPCOT",
    park_slug := "epcot", start_time := 0, duration_seconds := 200 }

/-! ## Helper lemmas -/

theorem fetch_attempt_all_fail (results : String → Option Park) (now : ℚ)
    (hfail : ∀ slug ∈ WDW_PARK_SLUGS, results slug = none) :
    fetch_attempt results now =
      { parks := [], last_fetch := some now, fetch_success := false,
        error_message := some "Failed to fetch data from all parks" } := by
  have hm : results "magic_kingdom" = none := hfail _ (by simp [WDW_PARK_SLUGS])
  have he : results "epcot" = none := hfail _ (by simp [WDW_PARK_SLUGS])
  have hh : results "hollywood_studios" = none := hfail _ (by simp [WDW_PARK_SLUGS])
  have ha : results "animal_kingdom" = none := hfail _ (by simp [WDW_PARK_SLUGS])
  simp [fetch_attempt, WDW_PARK_SLUGS, hm, he, hh, ha]

/-! ## Claim theorems -/

/-- C1: on a total fetch failure, a previously cached (necessarily
successful) snapshot is returned completely unchanged and the cache is
untouched; the attempt's own result object carries `fetch_success = false`
and the error message, and is returned only when no cache exists. -/
theorem fetch_failure_keeps_cached_snapshot
    (c : QueueTimesClient) (results : String → Option Park) (now : ℚ)
    (hfail : ∀ slug ∈ WDW_PARK_SLUGS, results slug = none) :
    (fetch_attempt results now).fetch_success = false ∧
    (fetch_attempt results now).error_message =
      some "Failed to fetch data from all parks" ∧
    (∀ cached, c.cache = some cached →
      fetch_all_parks c results now = (cached, c)) ∧
    (cacheOnlySuccessful c → ∀ cached, c.cache = some cached →
      (fetch_all_parks c results now).1.fetch_success = true) ∧
    (c.cache = none → fetch_all_parks c results now = (fetch_attempt results now, c)) ∧
    (∀ (results2 : String → Option Park) (now2 : ℚ), cacheOnlySuccessful c →
      cacheOnlySuccessful (fetch_all_parks c results2 now2).2) := by
  have key := fetch_attempt_all_fail results now hfail
  refine ⟨by rw [key], by rw [key], ?_, ?_, ?_, ?_⟩
  · intro cached hc
    simp [fetch_all_parks, key, hc]
  · intro hwf cached hc
    have : fetch_all_parks c results now = (cached, c) := by
      simp [fetch_all_parks, key, hc]
    rw [this]
    exact hwf cached hc
  · intro hc
    simp [fetch_all_parks, key, hc]
  · intro results2 now2 hwf
    unfold fetch_all_parks
    by_cases hs : (fetch_attempt results2 now2).fetch_success = true
    · simp only [hs, if_pos]
      intro x hx
      simp only [Option.some.injEq] at hx
      rw [← hx]
      exact hs
    · simp only [Bool.not_eq_true] at hs
      simp only [hs, Bool.false_eq_true, if_false]
      cases hcache : c.cache with
      | some cached => simpa [hcache] using hwf
      | none => simpa [hcache] using hwf

/-- Witness for C1: a concrete cached snapshot survives a total failure. -/
theorem fetch_failure_keeps_cached_snapshot_witness :
    fetch_all_parks { cache := some scenarioSnapshot } (fun _ => none) 0 =
      (scenarioSnapshot, { cache := some scenarioSnapshot }) ∧
    (fetch_attempt (fun _ => none) 0).fetch_success = false := by
  have h := fetch_failure_keeps_cached_snapshot
    { cache := some scenarioSnapshot } (fun _ => none) 0 (fun _ _ => rfl)
  exact ⟨h.2.2.1 scenarioSnapshot rfl, h.1⟩

theorem strLt_trans : ∀ x y z : List Char,
    strLt x y = true → strLt y z = true → strLt x z = true := by
  intro x
  induction x with
  | nil =>
    intro y z hxy hyz
    cases y with
    | nil => simp [strLt] at hxy
    | cons b bs =>
      cases z with
      | nil => simp [strLt] at hyz
      | cons c cs => simp [strLt]
  | cons a as ih =>
    intro y z hxy hyz
    cases y with
    | nil => simp [strLt] at hxy
    | cons b bs =>
      cases z with
      | nil => simp [strLt] at hyz
      | cons c cs =>
        simp only [strLt] at hxy hyz ⊢
        by_cases hab : a = b
        · by_cases hbc : b = c
          · have hac : a = c := hab.trans hbc
            simp only [if_pos hac]
            simp only [if_pos hab] at hxy
            simp only [if_pos hbc] at hyz
            exact ih bs cs hxy hyz
          · have hac : a ≠ c := by rw [hab]; exact hbc
            simp only [if_neg hac]
            simp only [if_pos hab] at hxy
            simp only [if_neg hbc] at hyz
            rw [hab]
            exact hyz
        · simp only [if_neg hab] at hxy
          by_cases hbc : b = c
          · have hac : a ≠ c := by rw [← hbc]; exact hab
            simp only [if_neg hac]
            rw [← hbc]
            exact hxy
          · simp only [if_neg hbc] at hyz
            have hlt : a.val < c.val :=
              @lt_trans Char _ a b c (of_decide_eq_true hxy) (of_decide_eq_true hyz)
            have hac : a ≠ c := by
              intro h
              rw [h] at hlt
              exact absurd hlt (@lt_irrefl Char _ c)
            simp only [if_neg hac]
            exact decide_eq_true hlt

theorem strLt_trichotomy : ∀ x y : List Char,
    strLt x y = true ∨ x = y ∨ strLt y x = true := by
  intro x
  induction x with
  | nil =>
    intro y
    cases y with
    | nil => right; left; rfl
    | cons b bs => left; simp [strLt]
  | cons a as ih =>
    intro y
    cases y with
    | nil => right; right; simp [strLt]
    | cons b bs =>
      by_cases hab : a = b
      · subst hab
        rcases ih bs with h | h | h
        · left; simp [strLt, h]
        · right; left; rw [h]
        · right; right; simp [strLt, h]
      · rcases @lt_trichotomy Char _ a b with h | h | h
        · left
          have hv : a.val < b.val := h
          simp [strLt, if_neg hab, decide_eq_true hv]
        · exact absurd h hab
        · right; right
          have hba : b ≠ a := fun he => hab he.symm
          have hv : b.val < a.val := h
          simp [strLt, if_neg hba, decide_eq_true hv]

theorem pyStrLt_trans {a b c : String} (h1 : pyStrLt a b = true)
    (h2 : pyStrLt b c = true) : pyStrLt a c = true :=
  strLt_trans _ _ _ h1 h2

theorem pyStrLt_trichotomy (a b : String) :
    pyStrLt a b = true ∨ a = b ∨ pyStrLt b a = true := by
  rcases strLt_trichotomy a.toList b.toList with h | h | h
  · exact Or.inl h
  · exact Or.inr (Or.inl (String.toList_inj.mp h))
  · exact Or.inr (Or.inr h)

theorem rideKeyLE_total : ∀ a b : Ride, rideKeyLE a b ∨ rideKeyLE b a := by
  intro a b
  unfold rideKeyLE
  rcases pyStrLt_trichotomy a.park_name b.park_name with h | h | h
  · left
    simp [h]
  · rcases le_total a.wait_time b.wait_time with hw | hw
    · right
      simp [h, hw]
    · left
      simp [h, hw]
  · right
    simp [h]

theorem rideKeyLE_trans : ∀ a b c : Ride,
    rideKeyLE a b → rideKeyLE b c → rideKeyLE a c := by
  intro a b c hab hbc
  unfold rideKeyLE at hab hbc ⊢
  simp only [Bool.or_eq_true, Bool.and_eq_true, beq_iff_eq, decide_eq_true_eq] at hab hbc ⊢
  rcases hab with hab | ⟨habe, habw⟩
  · rcases hbc with hbc | ⟨hbce, _⟩
    · exact Or.inl (pyStrLt_trans hab hbc)
    · rw [← hbce]
      exact Or.inl hab
  · rcases hbc with hbc | ⟨hbce, hbcw⟩
    · rw [habe]
      exact Or.inl hbc
    · exact Or.inr ⟨habe.trans hbce, le_trans hbcw habw⟩

theorem list_filterMap_some_comp {α β : Type} (f : α → β) (l : List α) :
    l.filterMap (fun a => some (f a)) = l.map f := by
  induction l with
  | nil => rfl
  | cons a as ih => simp [List.filterMap_cons, ih]

/-- C2: the display queue is exactly the open rides (`is_open` and
`wait_time > 0`) sorted by park name ascending then wait descending,
followed by one ClosedPark per park with no open ride; in the §8 scenario
the queue is [Space Mountain, ClosedPark(EPCOT)] and the zero-wait Jungle
Cruise is excluded. -/
theorem get_display_items_spec (d : WaitTimesData) :
    d.get_display_items =
      d.all_open_rides.map DisplayItem.ride ++
        (d.closed_parks.map DisplayItem.closedPark) ∧
    (∀ r : Ride, r ∈ d.all_open_rides ↔
      ∃ sp, sp ∈ d.parks ∧ r ∈ sp.2.rides ∧ r.is_open = true ∧ 0 < r.wait_time) ∧
    List.Sorted rideKeyLE d.all_open_rides ∧
    (∀ cp : ClosedPark, cp ∈ d.closed_parks ↔
      ∃ sp, sp ∈ d.parks ∧ sp.2.open_rides = [] ∧
        cp = { name := sp.2.name, slug := sp.1,
               opens_at := some (default_opens sp.1) }) ∧
    scenarioSnapshot.get_display_items =
      [DisplayItem.ride spaceMountain,
       DisplayItem.closedPark { name := "EPCOT", slug := "epcot", opens_at := some "9:00 AM" }] := by
  refine ⟨?_, ?_, ?_, ?_, by decide⟩
  · unfold WaitTimesData.get_display_items
    have hfun : (fun r : Ride =>
        if ((d.findParkSlug r.park_name).elim false TEST_CLOSED_PARKS.contains) then none
        else some (DisplayItem.ride r)) = fun r => some (DisplayItem.ride r) := by
      funext r
      cases d.findParkSlug r.park_name <;> simp [TEST_CLOSED_PARKS, Option.elim]
    rw [hfun, list_filterMap_some_comp]
  · intro r
    unfold WaitTimesData.all_open_rides
    rw [(List.perm_insertionSort rideKeyLE _).mem_iff]
    simp only [List.mem_flatten, List.mem_map]
    constructor
    · rintro ⟨l, ⟨sp, hsp, rfl⟩, hr⟩
      have hx := (List.mem_filter).mp hr
      simp only [Bool.and_eq_true, decide_eq_true_eq] at hx
      exact ⟨sp, hsp, hx.1, hx.2.1, hx.2.2⟩
    · rintro ⟨sp, hsp, hr, ho, hw⟩
      refine ⟨sp.2.open_rides, ⟨sp, hsp, rfl⟩, ?_⟩
      apply (List.mem_filter).mpr
      simp only [Bool.and_eq_true, decide_eq_true_eq]
      exact ⟨hr, ho, hw⟩
  · haveI : IsTotal Ride rideKeyLE := ⟨rideKeyLE_total⟩
    haveI : IsTrans Ride rideKeyLE := ⟨rideKeyLE_trans⟩
    exact List.sorted_insertionSort rideKeyLE _
  · intro cp
    unfold WaitTimesData.closed_parks
    rw [List.mem_filterMap]
    constructor
    · rintro ⟨sp, hsp, hf⟩
      simp only [TEST_CLOSED_PARKS, List.contains_nil, Bool.or_false] at hf
      by_cases he : sp.2.open_rides.isEmpty
      · rw [if_pos he] at hf
        exact ⟨sp, hsp, List.isEmpty_iff.mp he, (Option.some.injEq _ _ ▸ hf).symm⟩
      · rw [if_neg he] at hf
        exact absurd hf (by simp)
    · rintro ⟨sp, hsp, hempty, rfl⟩
      refine ⟨sp, hsp, ?_⟩
      simp [TEST_CLOSED_PARKS, hempty]

/-- C5: an event is active at t exactly when
`start ≤ t < start + duration`, where `start` is the event's time-of-day
combined with t's own calendar date; consequently an instant whose
time-of-day precedes the start time is never active, so the 22:00 + 3700 s
event is inactive at 00:05 the next day (and active inside its window). -/
theorem event_active_iff_same_day_window (e : ScheduledEvent) (t : ℚ) :
    (e.is_active_at t = true ↔
      combineDate t e.start_time ≤ t ∧
        t < combineDate t e.start_time + (e.duration_seconds : ℚ)) ∧
    (t - dayStart t < e.start_time → e.is_active_at t = false) ∧
    lateNightEvent.is_active_at 86700 = false ∧
    lateNightEvent.is_active_at 80000 = true := by
  refine ⟨?_, ?_, ?_, ?_⟩
  · simp [ScheduledEvent.is_active_at]
  · intro h
    have hns : ¬ (combineDate t e.start_time ≤ t) := by
      unfold combineDate
      linarith
    simp [ScheduledEvent.is_active_at, hns]
  · unfold ScheduledEvent.is_active_at combineDate dayStart lateNightEvent
    norm_num
  · unfold ScheduledEvent.is_active_at combineDate dayStart lateNightEvent
    norm_num

/-- Witness for C5: 86700 s (00:05 on day 1) is before the 22:00 start
time-of-day, and the event is indeed inactive there. -/
theorem event_active_iff_same_day_window_witness :
    (86700 : ℚ) - dayStart 86700 < lateNightEvent.start_time ∧
    lateNightEvent.is_active_at 86700 = false := by
  have hyp : (86700 : ℚ) - dayStart 86700 < lateNightEvent.start_time := by
    unfold dayStart lateNightEvent
    norm_num
  exact ⟨hyp, (event_active_iff_same_day_window lateNightEvent 86700).2.1 hyp⟩

theorem find_first_mem {α : Type} (p : α → Bool) (l : List α) (a : α)
    (ha : a ∈ l) (hp : p a = true) :
    ∃ e pre suf, l.find? p = some e ∧ p e = true ∧ l = pre ++ e :: suf ∧
      ∀ x ∈ pre, p x = false := by
  induction l with
  | nil => cases ha
  | cons b bs ih =>
    by_cases hb : p b = true
    · exact ⟨b, [], bs, by simp [List.find?_cons, hb], hb, rfl, by simp⟩
    · have hbf : p b = false := by simpa using hb
      have ha' : a ∈ bs := by
        rcases List.mem_cons.mp ha with h | h
        · subst h
          exact absurd hp (by simp [hbf])
        · exact h
      obtain ⟨e, pre, suf, hfind, hpe, heq, hpre⟩ := ih ha'
      refine ⟨e, b :: pre, suf, ?_, hpe, by rw [heq]; rfl, ?_⟩
      · simp [List.find?_cons, hbf, hfind]
      · intro x hx
        rcases List.mem_cons.mp hx with h | h
        · subst h; exact hbf
        · exact hpre x h

/-- C7: with two (or more) events active at t, `get_active_event` returns
the first active event in the internal iteration order of `self.events`:
the result is an active event all of whose list predecessors are inactive,
hence the same event on every call at t. -/
theorem get_active_event_first_in_order
    (events : List ScheduledEvent) (t : ℚ) (a b : ScheduledEvent)
    (ha : a ∈ events) (hact_a : a.is_active_at t = true)
    (hb : b ∈ events) (hact_b : b.is_active_at t = true) :
    ∃ e pre suf, get_active_event events t = some e ∧
      e.is_active_at t = true ∧ events = pre ++ e :: suf ∧
      ∀ x ∈ pre, x.is_active_at t = false := by
  exact find_first_mem (fun e => e.is_active_at t) events a ha hact_a

/-- Witness for C7: two overlapping events, both active at t = 0. -/
theorem get_active_event_first_in_order_witness :
    ∃ e pre suf,
      get_active_event [overlapEventA, overlapEventB] 0 = some e ∧
      e.is_active_at 0 = true ∧
      [overlapEventA, overlapEventB] = pre ++ e :: suf ∧
      ∀ x ∈ pre, x.is_active_at 0 = false := by
  have hA : overlapEventA.is_active_at 0 = true := by
    unfold ScheduledEvent.is_active_at combineDate dayStart overlapEventA
    norm_num
  have hB : overlapEventB.is_active_at 0 = true := by
    unfold ScheduledEvent.is_active_at combineDate dayStart overlapEventB
    norm_num
  exact get_active_event_first_in_order [overlapEventA, overlapEventB] 0
    overlapEventA overlapEventB (by simp) hA (by simp) hB

theorem matchTwoDigitHour_some_iff (a b c d e : Char) (rest : List Char)
    (h0 m0 : ℕ) :
    matchTwoDigitHour (a :: b :: c :: d :: e :: rest) = some (h0, m0) ↔
      a.isDigit = true ∧ b.isDigit = true ∧ c = ':' ∧ d.isDigit = true ∧
      e.isDigit = true ∧ h0 = 10 * digitVal a + digitVal b ∧
      m0 = 10 * digitVal d + digitVal e := by
  simp only [matchTwoDigitHour]
  split_ifs with hcond
  · simp only [Bool.and_eq_true, beq_iff_eq] at hcond
    obtain ⟨⟨⟨⟨hA, hB⟩, hC⟩, hD⟩, hE⟩ := hcond
    simp only [Option.some.injEq, Prod.mk.injEq]
    constructor
    · rintro ⟨rfl, rfl⟩
      exact ⟨hA, hB, hC, hD, hE, rfl, rfl⟩
    · rintro ⟨-, -, -, -, -, rfl, rfl⟩
      exact ⟨rfl, rfl⟩
  · constructor
    · intro h
      cases h
    · rintro ⟨hA, hB, rfl, hD, hE, -, -⟩
      exact absurd (by simp [hA, hB, hD, hE]) hcond

theorem matchOneDigitHour_some_iff (a c : Char) (t : List Char) (h0 m0 : ℕ) :
    matchOneDigitHour (a :: c :: t) = some (h0, m0) ↔
      ∃ d e rest, t = d :: e :: rest ∧ a.isDigit = true ∧ c = ':' ∧
        d.isDigit = true ∧ e.isDigit = true ∧ h0 = digitVal a ∧
        m0 = 10 * digitVal d + digitVal e := by
  cases t with
  | nil => simp [matchOneDigitHour]
  | cons d t2 =>
    cases t2 with
    | nil => simp [matchOneDigitHour]
    | cons e rest =>
      simp only [matchOneDigitHour]
      split_ifs with hcond
      · simp only [Bool.and_eq_true, beq_iff_eq] at hcond
        obtain ⟨⟨⟨hA, hC⟩, hD⟩, hE⟩ := hcond
        simp only [Option.some.injEq, Prod.mk.injEq]
        constructor
        · rintro ⟨rfl, rfl⟩
          exact ⟨d, e, rest, rfl, hA, hC, hD, hE, rfl, rfl⟩
        · rintro ⟨d', e', rest', heq, -, -, hD', hE', rfl, rfl⟩
          simp only [List.cons.injEq] at heq
          obtain ⟨rfl, rfl, rfl⟩ := heq
          exact ⟨rfl, rfl⟩
      · constructor
        · intro h
          cases h
        · rintro ⟨d', e', rest', heq, hA, rfl, hD, hE, -, -⟩
          simp only [List.cons.injEq] at heq
          obtain ⟨rfl, rfl, rfl⟩ := heq
          exact absurd (by simp [hA, hD, hE]) hcond

theorem digitVal_le_nine (c : Char) (h : c.isDigit = true) : digitVal c ≤ 9 := by
  simp only [Char.isDigit, Bool.and_eq_true, decide_eq_true_eq] at h
  have h2 : c.val.toNat ≤ (57 : UInt32).toNat := h.2
  have h57 : (57 : UInt32).toNat = 57 := rfl
  have hc : c.toNat = c.val.toNat := rfl
  have hz : ('0' : Char).toNat = 48 := rfl
  unfold digitVal
  omega

theorem regexMatchHM_some_iff (cs : List Char) (h0 m0 : ℕ) :
    regexMatchHM cs = some (h0, m0) ↔
      ((∃ a b d e rest, cs = a :: b :: ':' :: d :: e :: rest ∧
          a.isDigit = true ∧ b.isDigit = true ∧ d.isDigit = true ∧
          e.isDigit = true ∧ h0 = 10 * digitVal a + digitVal b ∧
          m0 = 10 * digitVal d + digitVal e) ∨
        (∃ a d e rest, cs = a :: ':' :: d :: e :: rest ∧
          a.isDigit = true ∧ d.isDigit = true ∧ e.isDigit = true ∧
          h0 = digitVal a ∧ m0 = 10 * digitVal d + digitVal e)) := by
  unfold regexMatchHM
  rcases cs with _ | ⟨a, _ | ⟨b, t⟩⟩
  · simp [matchTwoDigitHour, matchOneDigitHour, Option.orElse]
  · simp [matchTwoDigitHour, matchOneDigitHour, Option.orElse]
  · cases hm2 : matchTwoDigitHour (a :: b :: t) with
    | some p =>
      obtain ⟨H, M⟩ := p
      have hred : (Option.orElse (some (H, M)) fun _ => matchOneDigitHour (a :: b :: t)) =
          some (H, M) := rfl
      rw [hred]
      rcases t with _ | ⟨c, _ | ⟨d, _ | ⟨e, rest⟩⟩⟩
      · cases hm2
      · cases hm2
      · cases hm2
      · rw [matchTwoDigitHour_some_iff] at hm2
        obtain ⟨hA, hB, rfl, hD, hE, rfl, rfl⟩ := hm2
        simp only [Option.some.injEq, Prod.mk.injEq]
        constructor
        · rintro ⟨rfl, rfl⟩
          exact Or.inl ⟨a, b, d, e, rest, rfl, hA, hB, hD, hE, rfl, rfl⟩
        · rintro (⟨a', b', d', e', rest', heq, hA', hB', hD', hE', hh0, hm0⟩ |
                  ⟨a', d', e', rest', heq, hA', hD', hE', hh0, hm0⟩)
          · simp only [List.cons.injEq] at heq
            obtain ⟨rfl, rfl, -, rfl, rfl, rfl⟩ := heq
            exact ⟨hh0.symm, hm0.symm⟩
          · simp only [List.cons.injEq] at heq
            obtain ⟨rfl, hbc, -⟩ := heq
            rw [hbc] at hB
            exact absurd hB (by decide)
    | none =>
      have hred : (Option.orElse none fun _ => matchOneDigitHour (a :: b :: t)) =
          matchOneDigitHour (a :: b :: t) := rfl
      rw [hred]
      rw [matchOneDigitHour_some_iff]
      constructor
      · rintro ⟨d, e, rest, rfl, hA, rfl, hD, hE, rfl, rfl⟩
        exact Or.inr ⟨a, d, e, rest, rfl, hA, hD, hE, rfl, rfl⟩
      · rintro (⟨a', b', d', e', rest', heq, hA', hB', hD', hE', rfl, rfl⟩ |
                ⟨a', d', e', rest', heq, hA', hD', hE', rfl, rfl⟩)
        · simp only [List.cons.injEq] at heq
          obtain ⟨rfl, rfl, ht⟩ := heq
          subst ht
          exact absurd hm2 (by simp [matchTwoDigitHour, hA', hB', hD', hE'])
        · simp only [List.cons.injEq] at heq
          obtain ⟨rfl, rfl, ht⟩ := heq
          subst ht
          exact ⟨d', e', rest', rfl, hA', rfl, hD', hE', rfl, rfl⟩

/-- Counterexample to C6 as stated: `re.match` is unanchored at the end,
so `_parse_time` accepts "12:345" (as 12:34) and "9:30pm" (as 9:30), which
are not 24-hour HH:MM strings. -/
theorem parse_time_trailing_garbage :
    parse_time "12:345" = some (12, 34) ∧ matchesSpecHHMM "12:345" = false ∧
    parse_time "9:30pm" = some (9, 30) ∧ matchesSpecHHMM "9:30pm" = false := by
  decide

/-- C6 (amended): `_parse_time` accepts a string iff a PREFIX of it
matches `(\d{1,2}):(\d{2})` with hour 0-23 and minute 0-59 (trailing
characters are ignored); every accepted value is in range and every other
string yields `None` (dropped with a warning, never fatal).  Digits are
modelled as the ASCII digits the configuration surface uses. -/
theorem parse_time_accepts_iff_prefix_form (s : String) :
    ((parse_time s).isSome = true ↔
      (∃ a b d e rest, s.toList = a :: b :: ':' :: d :: e :: rest ∧
        a.isDigit = true ∧ b.isDigit = true ∧ d.isDigit = true ∧
        e.isDigit = true ∧ 10 * digitVal a + digitVal b ≤ 23 ∧
        10 * digitVal d + digitVal e ≤ 59) ∨
      (∃ a d e rest, s.toList = a :: ':' :: d :: e :: rest ∧
        a.isDigit = true ∧ d.isDigit = true ∧ e.isDigit = true ∧
        10 * digitVal d + digitVal e ≤ 59)) ∧
    (∀ h m, parse_time s = some (h, m) → h ≤ 23 ∧ m ≤ 59) := by
  constructor
  · unfold parse_time
    cases hr : regexMatchHM s.toList with
    | none =>
      show (Option.isSome (none : Option (ℕ × ℕ)) = true) ↔ _
      simp only [Option.isSome_none, Bool.false_eq_true, false_iff]
      rintro (⟨a, b, d, e, rest, hl, hA, hB, hD, hE, -, -⟩ |
              ⟨a, d, e, rest, hl, hA, hD, hE, -⟩)
      · have hsome := (regexMatchHM_some_iff s.toList
          (10 * digitVal a + digitVal b) (10 * digitVal d + digitVal e)).mpr
          (Or.inl ⟨a, b, d, e, rest, hl, hA, hB, hD, hE, rfl, rfl⟩)
        rw [hr] at hsome
        cases hsome
      · have hsome := (regexMatchHM_some_iff s.toList
          (digitVal a) (10 * digitVal d + digitVal e)).mpr
          (Or.inr ⟨a, d, e, rest, hl, hA, hD, hE, rfl, rfl⟩)
        rw [hr] at hsome
        cases hsome
    | some p =>
      obtain ⟨H, M⟩ := p
      show ((if H ≤ 23 && M ≤ 59 then some (H, M) else none).isSome = true) ↔ _
      rw [regexMatchHM_some_iff] at hr
      split_ifs with hrange
      · simp only [Bool.and_eq_true, decide_eq_true_eq] at hrange
        simp only [Option.isSome_some, true_iff]
        rcases hr with ⟨a, b, d, e, rest, hl, hA, hB, hD, hE, hH, hM⟩ |
          ⟨a, d, e, rest, hl, hA, hD, hE, hH, hM⟩
        · exact Or.inl ⟨a, b, d, e, rest, hl, hA, hB, hD, hE,
            hH ▸ hrange.1, hM ▸ hrange.2⟩
        · exact Or.inr ⟨a, d, e, rest, hl, hA, hD, hE, hM ▸ hrange.2⟩
      · simp only [Bool.and_eq_true, decide_eq_true_eq, not_and] at hrange
        simp only [Option.isSome_none, Bool.false_eq_true, false_iff]
        rintro (⟨a, b, d, e, rest, hl, hA, hB, hD, hE, hle1, hle2⟩ |
                ⟨a, d, e, rest, hl, hA, hD, hE, hle2⟩)
        · rcases hr with ⟨a2, b2, d2, e2, rest2, hl2, hA2, hB2, hD2, hE2, hH, hM⟩ |
            ⟨a2, d2, e2, rest2, hl2, hA2, hD2, hE2, hH, hM⟩
          · rw [hl] at hl2
            simp only [List.cons.injEq] at hl2
            obtain ⟨ha, hb, -, hd, he, -⟩ := hl2
            rw [← ha, ← hb] at hH
            rw [← hd, ← he] at hM
            rw [hH, hM] at hrange
            exact absurd hle2 (hrange hle1)
          · rw [hl] at hl2
            simp only [List.cons.injEq] at hl2
            obtain ⟨-, hb, -⟩ := hl2
            rw [hb] at hB
            exact absurd hB (by decide)
        · rcases hr with ⟨a2, b2, d2, e2, rest2, hl2, hA2, hB2, hD2, hE2, hH, hM⟩ |
            ⟨a2, d2, e2, rest2, hl2, hA2, hD2, hE2, hH, hM⟩
          · rw [hl] at hl2
            simp only [List.cons.injEq] at hl2
            obtain ⟨-, hb, -⟩ := hl2
            rw [← hb] at hB2
            exact absurd hB2 (by decide)
          · rw [hl] at hl2
            simp only [List.cons.injEq] at hl2
            obtain ⟨ha, -, hd, he, -⟩ := hl2
            rw [← ha] at hH
            rw [← hd, ← he] at hM
            have hH23 : H ≤ 23 := by
              rw [hH]
              exact le_trans (digitVal_le_nine a hA) (by norm_num)
            rw [hM] at hrange
            exact absurd hle2 (hrange hH23)
  · intro h m hpm
    unfold parse_time at hpm
    cases hr : regexMatchHM s.toList with
    | none =>
      rw [hr] at hpm
      cases hpm
    | some p =>
      obtain ⟨H, M⟩ := p
      rw [hr] at hpm
      have hpm2 : (if H ≤ 23 && M ≤ 59 then some (H, M) else none) = some (h, m) := hpm
      split_ifs at hpm2 with hrange
      · simp only [Bool.and_eq_true, decide_eq_true_eq] at hrange
        simp only [Option.some.injEq, Prod.mk.injEq] at hpm2
        obtain ⟨rfl, rfl⟩ := hpm2
        exact hrange

/-- Witness for C6 (amended): "22:00" parses and its values satisfy the
range conclusion. -/
theorem parse_time_accepts_iff_prefix_form_witness :
    parse_time "22:00" = some (22, 0) ∧ 22 ≤ 23 ∧ 0 ≤ 59 := by
  have hp : parse_time "22:00" = some (22, 0) := by decide
  exact ⟨hp, (parse_time_accepts_iff_prefix_form "22:00").2 22 0 hp⟩

theorem refresh_staleness_rot (s : RideDisplay) (env : TickEnv) :
    (s.refresh_staleness env).current_index = s.current_index ∧
    (s.refresh_staleness env).time_on_current = s.time_on_current ∧
    (s.refresh_staleness env).transitioning = s.transitioning ∧
    (s.refresh_staleness env).transition_progress = s.transition_progress ∧
    (s.refresh_staleness env).config = s.config ∧
    (s.refresh_staleness env).display_items = s.display_items ∧
    (s.refresh_staleness env).image_manager = s.image_manager ∧
    (s.refresh_staleness env).event_scheduler = s.event_scheduler ∧
    (s.refresh_staleness env).active_event = s.active_event ∧
    (s.refresh_staleness env).last_data_update = s.last_data_update := by
  cases h : s.last_data_update <;> simp [RideDisplay.refresh_staleness, h]

theorem event_edges_rot (s : RideDisplay) (env : TickEnv) :
    (s.event_edges env).current_index = s.current_index ∧
    (s.event_edges env).time_on_current = s.time_on_current ∧
    (s.event_edges env).transitioning = s.transitioning ∧
    (s.event_edges env).transition_progress = s.transition_progress ∧
    (s.event_edges env).config = s.config ∧
    (s.event_edges env).display_items = s.display_items ∧
    (s.event_edges env).image_manager = s.image_manager ∧
    (s.event_edges env).event_scheduler = s.event_scheduler := by
  cases hs : s.event_scheduler with
  | none => simp [RideDisplay.event_edges, hs]
  | some events =>
    cases hq : get_active_event events env.now with
    | some e =>
      cases ha : s.active_event with
      | none => simp [RideDisplay.event_edges, hs, hq, ha]
      | some e0 => simp [RideDisplay.event_edges, hs, hq, ha]
    | none =>
      cases ha : s.active_event with
      | none => simp [RideDisplay.event_edges, hs, hq, ha]
      | some e0 => simp [RideDisplay.event_edges, hs, hq, ha]

theorem start_transition_cases (s : RideDisplay) :
    s.start_transition = s ∨
    ((s.start_transition).transitioning = true ∧
     (s.start_transition).transition_progress = 0 ∧
     (s.start_transition).time_on_current = s.time_on_current ∧
     (s.start_transition).config = s.config) := by
  by_cases h1 : s.display_items.length ≤ 1
  · left
    unfold RideDisplay.start_transition
    rw [if_pos h1]
  · right
    simp only [RideDisplay.start_transition]
    rw [if_neg h1]
    split_ifs <;> exact ⟨rfl, rfl, rfl, rfl⟩

theorem rotation_advance_inv (s : RideDisplay) (dt : ℚ) (h : RotationInv s) :
    RotationInv (s.rotation_advance dt) := by
  obtain ⟨hp, ht, hd⟩ := h
  simp only [RideDisplay.rotation_advance]
  by_cases htr : s.transitioning = true
  · rw [if_pos htr]
    simp only [RideDisplay.update_transition]
    rw [htr]
    simp only [Bool.not_true, Bool.false_eq_true, if_false]
    split_ifs with hge
    · exact ⟨by simp, ht, hd⟩
    · refine ⟨?_, ht, hd⟩
      intro _
      push_neg at hge
      exact hge
  · rw [if_neg htr]
    split_ifs with hge
    · rcases start_transition_cases { s with time_on_current := 0 } with hcase | ⟨h1, h2, h3, h4⟩
      · rw [hcase]
        exact ⟨fun hc => absurd hc htr, hd, hd⟩
      · refine ⟨?_, ?_, ?_⟩
        · intro _
          rw [h2]
          norm_num
        · rw [h3, h4]
          exact hd
        · rw [h4]
          exact hd
    · refine ⟨?_, ?_, hd⟩
      · intro hc
        exact absurd hc (by simpa using htr)
      · push_neg at hge
        simpa using hge

theorem update_inv (s : RideDisplay) (dt : ℚ) (env : TickEnv) (h : RotationInv s) :
    RotationInv (s.update dt env) := by
  obtain ⟨r1, r2, r3, r4, r5, -⟩ := refresh_staleness_rot s env
  obtain ⟨e1, e2, e3, e4, e5, -⟩ := event_edges_rot (s.refresh_staleness env) env
  have hinv1 : RotationInv ((s.refresh_staleness env).event_edges env) := by
    unfold RotationInv
    rw [e2, e3, e4, e5, r2, r3, r4, r5]
    exact h
  simp only [RideDisplay.update]
  cases ha : ((s.refresh_staleness env).event_edges env).active_event with
  | some e =>
    unfold RotationInv at hinv1 ⊢
    simpa using hinv1
  | none => exact rotation_advance_inv _ dt hinv1

theorem initial_inv (cfg : DisplayConfig) (hd : 0 < cfg.display_duration) :
    RotationInv (RideDisplay.initial cfg) := by
  exact ⟨by simp [RideDisplay.initial], hd, hd⟩

theorem set_rides_inv (s : RideDisplay) (d : WaitTimesData) (now : ℚ)
    (h : RotationInv s) : RotationInv (s.set_rides d now) := h

theorem set_event_scheduler_inv (s : RideDisplay) (events : List ScheduledEvent)
    (h : RotationInv s) : RotationInv (s.set_event_scheduler events) := h

theorem rotationInv_of_reachable {s : RideDisplay} (h : Reachable s) :
    RotationInv s := by
  induction h with
  | init cfg hd => exact initial_inv cfg hd
  | update dt env _ ih => exact update_inv _ dt env ih
  | set_rides d now _ ih => exact set_rides_inv _ d now ih
  | set_event_scheduler events _ ih => exact set_event_scheduler_inv _ events ih

theorem update_zero_rot (s : RideDisplay) (env : TickEnv) (h : RotationInv s) :
    (s.update 0 env).current_index = s.current_index ∧
    (s.update 0 env).time_on_current = s.time_on_current ∧
    (s.update 0 env).transition_progress = s.transition_progress := by
  obtain ⟨r1, r2, r3, r4, r5, -⟩ := refresh_staleness_rot s env
  obtain ⟨e1, e2, e3, e4, e5, -⟩ := event_edges_rot (s.refresh_staleness env) env
  obtain ⟨hp, ht, hd⟩ := h
  simp only [RideDisplay.update]
  cases ha : ((s.refresh_staleness env).event_edges env).active_event with
  | some e =>
    refine ⟨?_, ?_, ?_⟩ <;> simp [e1, e2, e4, r1, r2, r4]
  | none =>
    simp only [RideDisplay.rotation_advance]
    by_cases htr : ((s.refresh_staleness env).event_edges env).transitioning = true
    · rw [if_pos htr]
      simp only [RideDisplay.update_transition]
      rw [htr]
      simp only [Bool.not_true, Bool.false_eq_true, if_false]
      have hplt : ((s.refresh_staleness env).event_edges env).transition_progress < 1 := by
        rw [e4, r4]
        exact hp (by rw [← r3, ← e3]; exact htr)
      rw [zero_div, add_zero]
      rw [if_neg (by push_neg; exact hplt)]
      exact ⟨by simp [e1, r1], by simp [e2, r2], by simp [e4, r4]⟩
    · rw [if_neg htr]
      rw [add_zero]
      have hlt : ((s.refresh_staleness env).event_edges env).time_on_current <
          ((s.refresh_staleness env).event_edges env).config.display_duration := by
        rw [e2, e5, r2, r5]
        exact ht
      rw [if_neg (by push_neg; exact hlt)]
      exact ⟨by simp [e1, r1], by simp [e2, r2], by simp [e4, r4]⟩

/-- C3: from any reachable display state, any sequence of `update` calls
with `dt = 0` (under arbitrary wall-clock inputs) leaves the rotation
index, the dwell accumulator and the transition progress unchanged. -/
theorem tick_zero_preserves_rotation_state :
    ∀ (envs : List TickEnv) (s : RideDisplay), Reachable s →
      ((envs.foldl (fun t e => t.update 0 e) s).current_index = s.current_index ∧
       (envs.foldl (fun t e => t.update 0 e) s).time_on_current = s.time_on_current ∧
       (envs.foldl (fun t e => t.update 0 e) s).transition_progress = s.transition_progress) := by
  intro envs
  induction envs with
  | nil => exact fun s _ => ⟨rfl, rfl, rfl⟩
  | cons env rest ih =>
    intro s h
    have hstep := update_zero_rot s env (rotationInv_of_reachable h)
    have hreach : Reachable (s.update 0 env) := Reachable.update 0 env h
    obtain ⟨i1, i2, i3⟩ := ih (s.update 0 env) hreach
    simp only [List.foldl_cons]
    exact ⟨i1.trans hstep.1, i2.trans hstep.2.1, i3.trans hstep.2.2⟩

/-- Witness for C3: two zero-dt ticks on the freshly constructed display
(default config) leave the rotation index unchanged. -/
theorem tick_zero_preserves_rotation_state_witness :
    Reachable (RideDisplay.initial {}) ∧
    (([⟨5, 5⟩, ⟨6, 6⟩] : List TickEnv).foldl (fun t e => t.update 0 e)
        (RideDisplay.initial {})).current_index =
      (RideDisplay.initial {}).current_index := by
  have hreach : Reachable (RideDisplay.initial {}) :=
    Reachable.init {} (by norm_num)
  exact ⟨hreach,
    (tick_zero_preserves_rotation_state [⟨5, 5⟩, ⟨6, 6⟩] (RideDisplay.initial {}) hreach).1⟩

theorem start_transition_display_items (s : RideDisplay) :
    (s.start_transition).display_items = s.display_items := by
  by_cases h1 : s.display_items.length ≤ 1
  · unfold RideDisplay.start_transition
    rw [if_pos h1]
  · simp only [RideDisplay.start_transition]
    rw [if_neg h1]
    split_ifs <;> rfl

theorem start_transition_current_index (s : RideDisplay)
    (h2 : ¬ s.display_items.length ≤ 1) :
    (s.start_transition).current_index =
      (s.current_index + 1) % s.display_items.length := by
  simp only [RideDisplay.start_transition]
  rw [if_neg h2]
  split_ifs <;> rfl

theorem start_transition_image_manager (s : RideDisplay)
    (h2 : ¬ s.display_items.length ≤ 1) :
    (s.start_transition).image_manager =
      (if (s.current_index + 1) % s.display_items.length = 0 then
        s.image_manager.map advance_all_cycles
      else s.image_manager) := by
  simp only [RideDisplay.start_transition]
  rw [if_neg h2]
  by_cases hidx : (s.current_index + 1) % s.display_items.length = 0
  · rw [if_pos hidx]
    cases hm : s.image_manager with
    | none => simp [hm, hidx]
    | some m => simp [hm, hidx]
  · rw [if_neg hidx]
    simp [hidx]

theorem mod_succ_shift (a N : ℕ) (hN : 2 ≤ N) : (a % N + 1) % N = (a + 1) % N := by
  conv_rhs => rw [Nat.add_mod]
  rw [Nat.mod_eq_of_lt (show 1 < N by omega)]

/-- C4: on a queue of N ≥ 2 items, N consecutive transitions return the
index to its start; the image manager is advanced by `advance_all_cycles`
exactly once per lap — at the single transition where the index wraps to 0
(the `k ≤ N` clause shows the manager is untouched before the wrap and
advanced exactly once from it on) — and that advance bumps each folder's
counter by one modulo its image count. -/
theorem full_lap_round_trip (s : RideDisplay) (N : ℕ) (m : ImageManager)
    (hN : 2 ≤ N) (hlen : s.display_items.length = N)
    (hiN : s.current_index < N) (him : s.image_manager = some m) :
    (∀ k, k ≤ N →
      (RideDisplay.start_transition^[k] s).current_index = (s.current_index + k) % N ∧
      (RideDisplay.start_transition^[k] s).image_manager =
        some (if N ≤ s.current_index + k then advance_all_cycles m else m)) ∧
    (RideDisplay.start_transition^[N] s).current_index = s.current_index ∧
    (RideDisplay.start_transition^[N] s).image_manager = some (advance_all_cycles m) ∧
    advance_all_cycles m = m.map (fun e =>
      if 0 < e.num_images then { e with counter := (e.counter + 1) % e.num_images }
      else e) := by
  have hitems : ∀ k, (RideDisplay.start_transition^[k] s).display_items = s.display_items := by
    intro k
    induction k with
    | zero => rfl
    | succ k ih =>
      rw [Function.iterate_succ_apply']
      rw [start_transition_display_items, ih]
  have hmain : ∀ k, k ≤ N →
      (RideDisplay.start_transition^[k] s).current_index = (s.current_index + k) % N ∧
      (RideDisplay.start_transition^[k] s).image_manager =
        some (if N ≤ s.current_index + k then advance_all_cycles m else m) := by
    intro k
    induction k with
    | zero =>
      intro _
      refine ⟨?_, ?_⟩
      · simp [Nat.mod_eq_of_lt hiN]
      · rw [if_neg (by omega)]
        simpa using him
    | succ k ih =>
      intro hk1
      obtain ⟨ihi, ihm⟩ := ih (by omega)
      have hlk : ¬ (RideDisplay.start_transition^[k] s).display_items.length ≤ 1 := by
        rw [hitems k, hlen]
        omega
      have hassoc : s.current_index + (k + 1) = s.current_index + k + 1 := by omega
      have hidx : (RideDisplay.start_transition^[k + 1] s).current_index =
          (s.current_index + (k + 1)) % N := by
        rw [Function.iterate_succ_apply']
        rw [start_transition_current_index _ hlk, hitems k, hlen, ihi]
        rw [mod_succ_shift _ _ hN, hassoc]
      refine ⟨hidx, ?_⟩
      rw [Function.iterate_succ_apply']
      rw [start_transition_image_manager _ hlk, hitems k, hlen, ihi, ihm]
      rw [mod_succ_shift _ _ hN]
      rcases Nat.lt_trichotomy (s.current_index + k + 1) N with hcase | hcase | hcase
      · rw [if_neg (by rw [Nat.mod_eq_of_lt hcase]; omega)]
        rw [if_neg (by omega : ¬ N ≤ s.current_index + k)]
        rw [if_neg (by omega : ¬ N ≤ s.current_index + (k + 1))]
      · rw [if_pos (by rw [hcase, Nat.mod_self])]
        rw [if_neg (by omega : ¬ N ≤ s.current_index + k)]
        rw [if_pos (by omega : N ≤ s.current_index + (k + 1))]
        rfl
      · have hlt2 : s.current_index + k + 1 - N < N := by omega
        have hmod : (s.current_index + k + 1) % N = s.current_index + k + 1 - N := by
          rw [Nat.mod_eq_sub_mod (by omega : N ≤ s.current_index + k + 1)]
          exact Nat.mod_eq_of_lt hlt2
        rw [if_neg (by rw [hmod]; omega)]
        rw [if_pos (by omega : N ≤ s.current_index + k)]
        rw [if_pos (by omega : N ≤ s.current_index + (k + 1))]
  refine ⟨hmain, ?_, ?_, rfl⟩
  · rw [(hmain N le_rfl).1, Nat.add_mod_right, Nat.mod_eq_of_lt hiN]
  · rw [(hmain N le_rfl).2, if_pos (by omega : N ≤ s.current_index + N)]

/-- Witness for C4: two transitions on the two-card demo queue return the
index to 0 and advance the image cycle once. -/
theorem full_lap_round_trip_witness :
    (RideDisplay.start_transition^[2] lapDemoDisplay).current_index =
      lapDemoDisplay.current_index ∧
    (RideDisplay.start_transition^[2] lapDemoDisplay).image_manager =
      some (advance_all_cycles lapDemoManager) := by
  have h := full_lap_round_trip lapDemoDisplay 2 lapDemoManager
    (by norm_num) (by decide) (by decide) rfl
  exact ⟨h.2.1, h.2.2.1⟩

theorem event_edges_active_of (s : RideDisplay) (env : TickEnv)
    (hact : eventActiveNow s env) :
    (((s.refresh_staleness env).event_edges env).active_event).isSome = true := by
  obtain ⟨-, -, -, -, -, -, -, r8, r9, -⟩ := refresh_staleness_rot s env
  unfold eventActiveNow at hact
  cases hs : s.event_scheduler with
  | none =>
    rw [hs] at hact
    have hsch1 : (s.refresh_staleness env).event_scheduler = none := by rw [r8, hs]
    have hedge : (s.refresh_staleness env).event_edges env = s.refresh_staleness env := by
      simp [RideDisplay.event_edges, hsch1]
    rw [hedge, r9]
    exact hact
  | some events =>
    rw [hs] at hact
    obtain ⟨e, hq⟩ := Option.isSome_iff_exists.mp hact
    have hsch1 : (s.refresh_staleness env).event_scheduler = some events := by rw [r8, hs]
    cases ha : s.active_event with
    | none =>
      have ha1 : (s.refresh_staleness env).active_event = none := by rw [r9, ha]
      have hedge : (s.refresh_staleness env).event_edges env =
          { s.refresh_staleness env with
              active_event := some e
              event_start_time := env.wall
              anim_trace := [] } := by
        simp [RideDisplay.event_edges, hsch1, hq, ha1]
      rw [hedge]
      rfl
    | some e0 =>
      have ha1 : (s.refresh_staleness env).active_event = some e0 := by rw [r9, ha]
      have hedge : (s.refresh_staleness env).event_edges env = s.refresh_staleness env := by
        simp [RideDisplay.event_edges, hsch1, hq, ha1]
      rw [hedge, ha1]
      rfl

/-- C8: while an event is active (reported by the scheduler, or stored
with no scheduler installed), `update` leaves `current_index`,
`time_on_current`, `transitioning` and `transition_progress` unchanged —
only the animation driver is advanced; and on the tick where the event
ends, `update` resumes normal rotation from a state whose dwell
accumulator is exactly the value frozen when the event began. -/
theorem event_active_freezes_rotation (s : RideDisplay) (dt : ℚ) (env : TickEnv) :
    (eventActiveNow s env →
      (s.update dt env).current_index = s.current_index ∧
      (s.update dt env).time_on_current = s.time_on_current ∧
      (s.update dt env).transitioning = s.transitioning ∧
      (s.update dt env).transition_progress = s.transition_progress) ∧
    (∀ events e, s.event_scheduler = some events → s.active_event = some e →
      get_active_event events env.now = none →
      s.update dt env =
        RideDisplay.rotation_advance
          { s.refresh_staleness env with
              active_event := none
              event_start_time := 0 } dt ∧
      ({ s.refresh_staleness env with
          active_event := none
          event_start_time := 0 } : RideDisplay).time_on_current =
        s.time_on_current) := by
  obtain ⟨r1, r2, r3, r4, r5, r6, r7, r8, r9, r10⟩ := refresh_staleness_rot s env
  obtain ⟨e1, e2, e3, e4, e5, e6, e7, e8⟩ := event_edges_rot (s.refresh_staleness env) env
  constructor
  · intro hact
    have hsome := event_edges_active_of s env hact
    simp only [RideDisplay.update]
    cases hae : ((s.refresh_staleness env).event_edges env).active_event with
    | none => rw [hae] at hsome; cases hsome
    | some e =>
      refine ⟨?_, ?_, ?_, ?_⟩ <;> simp [e1, e2, e3, e4, r1, r2, r3, r4]
  · intro events e hsch hae hq
    have hsch1 : (s.refresh_staleness env).event_scheduler = some events := by
      rw [r8, hsch]
    have hae1 : (s.refresh_staleness env).active_event = some e := by rw [r9, hae]
    have hedge : (s.refresh_staleness env).event_edges env =
        { s.refresh_staleness env with
            active_event := none
            event_start_time := 0 } := by
      simp [RideDisplay.event_edges, hsch1, hq, hae1]
    constructor
    · simp only [RideDisplay.update, hedge]
    · exact r2

/-- Witness for C8: a tick with an injected active event freezes the four
rotation fields, and a concrete event-end tick resumes rotation from the
frozen dwell value. -/
theorem event_active_freezes_rotation_witness :
    ((eventDemoNoSched.update 1 ⟨0, 0⟩).current_index =
        eventDemoNoSched.current_index ∧
      (eventDemoNoSched.update 1 ⟨0, 0⟩).time_on_current =
        eventDemoNoSched.time_on_current ∧
      (eventDemoNoSched.update 1 ⟨0, 0⟩).transitioning =
        eventDemoNoSched.transitioning ∧
      (eventDemoNoSched.update 1 ⟨0, 0⟩).transition_progress =
        eventDemoNoSched.transition_progress) ∧
    eventDemoEnding.update 1 ⟨0, 0⟩ =
      RideDisplay.rotation_advance
        { eventDemoEnding.refresh_staleness ⟨0, 0⟩ with
            active_event := none
            event_start_time := 0 } 1 := by
  refine ⟨(event_active_freezes_rotation eventDemoNoSched 1 ⟨0, 0⟩).1 ?_, ?_⟩
  · unfold eventActiveNow eventDemoNoSched
    rfl
  · exact ((event_active_freezes_rotation eventDemoEnding 1 ⟨0, 0⟩).2
      [] demoParade rfl rfl rfl).1

theorem start_transition_id_of_short (s : RideDisplay)
    (h : s.display_items.length ≤ 1) : s.start_transition = s := by
  unfold RideDisplay.start_transition
  rw [if_pos h]

theorem rotation_advance_static (s : RideDisplay) (dt : ℚ)
    (htr : s.transitioning = false) (hlen : s.display_items.length ≤ 1) :
    s.rotation_advance dt =
      { s with time_on_current :=
          if s.config.display_duration ≤ s.time_on_current + dt then 0
          else s.time_on_current + dt } := by
  simp only [RideDisplay.rotation_advance]
  rw [if_neg (by rw [htr]; exact Bool.false_ne_true)]
  by_cases hdur : s.config.display_duration ≤ s.time_on_current + dt
  · rw [if_pos hdur, if_pos hdur]
    exact start_transition_id_of_short _ hlen
  · rw [if_neg hdur, if_neg hdur]

/-- C10: on a queue of length ≤ 1, `_start_transition` is a no-op, and an
event-free tick never enters TRANSITIONING, never moves the index, never
advances an image cycle, and merely accumulates dwell time — resetting it
to 0 on expiry (no self-crossfade). -/
theorem short_queue_static_display (s : RideDisplay) (dt : ℚ) (env : TickEnv)
    (hlen : s.display_items.length ≤ 1) :
    s.start_transition = s ∧
    (noEventNow s env → s.transitioning = false →
      (s.update dt env).current_index = s.current_index ∧
      (s.update dt env).transitioning = false ∧
      (s.update dt env).transition_progress = s.transition_progress ∧
      (s.update dt env).image_manager = s.image_manager ∧
      (s.update dt env).display_items = s.display_items ∧
      (s.update dt env).time_on_current =
        (if s.config.display_duration ≤ s.time_on_current + dt then 0
         else s.time_on_current + dt)) := by
  refine ⟨start_transition_id_of_short s hlen, ?_⟩
  rintro ⟨hae, hq⟩ htr
  obtain ⟨r1, r2, r3, r4, r5, r6, r7, r8, r9, r10⟩ := refresh_staleness_rot s env
  have hae1 : (s.refresh_staleness env).active_event = none := by rw [r9, hae]
  have hedge : (s.refresh_staleness env).event_edges env = s.refresh_staleness env := by
    cases hs : s.event_scheduler with
    | none =>
      have hsch1 : (s.refresh_staleness env).event_scheduler = none := by rw [r8, hs]
      simp [RideDisplay.event_edges, hsch1]
    | some events =>
      have hsch1 : (s.refresh_staleness env).event_scheduler = some events := by
        rw [r8, hs]
      simp [RideDisplay.event_edges, hsch1, hq events hs, hae1]
  have htr1 : (s.refresh_staleness env).transitioning = false := by rw [r3, htr]
  have hlen1 : (s.refresh_staleness env).display_items.length ≤ 1 := by
    rw [r6]
    exact hlen
  simp only [RideDisplay.update, hedge, hae1]
  rw [rotation_advance_static _ dt htr1 hlen1]
  refine ⟨r1, htr1, r4, r7, r6, ?_⟩
  rw [r2, r5]

/-- Witness for C10: a single-card queue is static across a big tick. -/
theorem short_queue_static_display_witness :
    singleItemDisplay.start_transition = singleItemDisplay ∧
    (singleItemDisplay.update 10 ⟨0, 0⟩).current_index =
      singleItemDisplay.current_index ∧
    (singleItemDisplay.update 10 ⟨0, 0⟩).transitioning = false := by
  have h := short_queue_static_display singleItemDisplay 10 ⟨0, 0⟩ (by decide)
  have h2 := h.2 ⟨rfl, fun events hev => by cases hev⟩ rfl
  exact ⟨h.1, h2.1, h2.2.1⟩

theorem pyInt_eq_floor (q : ℚ) (h : 0 ≤ q) : pyInt q = ⌊q⌋ := by
  unfold pyInt
  rw [Int.tdiv_eq_ediv (Rat.num_nonneg.mpr h) (by positivity)]
  rw [Rat.floor_def]

/-- C9: freshness is a pure function of (last_fetch, now): `is_stale` is
true iff the age exceeds 900 s or no timestamp exists; `age_minutes` is
the floored age in minutes (for the non-negative ages the program
produces); the warning badge is drawn iff `age_minutes > 10` or an error
message is present, in error color exactly when the last fetch failed and
showing the numeric age when positive; the 20-minute-failed scenario
yields a stale snapshot and a "20m" badge in error color. -/
theorem freshness_pure_functions :
    (∀ (d : WaitTimesData) (now : ℚ),
      d.is_stale now = true ↔
        (d.last_fetch = none ∨ ∃ t, d.last_fetch = some t ∧ 900 < now - t)) ∧
    (∀ (d : WaitTimesData) (t now : ℚ), d.last_fetch = some t → 0 ≤ now - t →
      d.age_minutes now = ⌊(now - t) / 60⌋) ∧
    (∀ (s : RideDisplay) (now : ℚ),
      ((s.render_status_indicator now).isSome = true ↔
        (10 < s.get_data_age_minutes now ∨ pyTruthyStr s.last_error = true)) ∧
      (∀ b, s.render_status_indicator now = some b →
        b.color =
          (if pyTruthyStr s.last_error then STATUS_ERROR else STATUS_WARNING) ∧
        b.age_label =
          (if 0 < s.get_data_age_minutes now then
            some (s.get_data_age_minutes now) else none))) ∧
    (staleSnapshot.is_stale 1200 = true ∧
     staleDisplay.render_status_indicator 1200 =
       some { color := STATUS_ERROR, age_label := some 20 }) := by
  refine ⟨?_, ?_, ?_, ?_, ?_⟩
  · intro d now
    unfold WaitTimesData.is_stale
    cases hlf : d.last_fetch with
    | none => simp
    | some t => simp
  · intro d t now hlf hage
    unfold WaitTimesData.age_minutes
    rw [hlf]
    exact pyInt_eq_floor _ (by positivity)
  · intro s now
    constructor
    · unfold RideDisplay.render_status_indicator
      split_ifs with hcond
      · simp only [Option.isSome_some, true_iff]
        simpa using hcond
      · simp only [Option.isSome_none, Bool.false_eq_true, false_iff]
        simpa using hcond
    · intro b hb
      unfold RideDisplay.render_status_indicator at hb
      by_cases hc1 :
          (decide (10 < s.get_data_age_minutes now) || pyTruthyStr s.last_error) = true
      · rw [if_pos hc1] at hb
        simp only [Option.some.injEq] at hb
        rw [← hb]
        constructor
        · rfl
        · simp only [decide_eq_true_eq]
      · rw [if_neg hc1] at hb
        cases hb
  · unfold WaitTimesData.is_stale staleSnapshot
    norm_num
  · unfold RideDisplay.render_status_indicator RideDisplay.get_data_age_minutes staleDisplay
    norm_num [pyTruthyStr, pyInt]
    intro h
    exact absurd h (by decide)

/-- Witness for C9: the floored-age clause and the badge-color clause at
the concrete 20-minute scenario. -/
theorem freshness_pure_functions_witness :
    staleSnapshot.age_minutes 1200 = ⌊((1200 : ℚ) - 0) / 60⌋ ∧
    ({ color := STATUS_ERROR, age_label := some 20 } : Badge).color =
      (if pyTruthyStr staleDisplay.last_error then STATUS_ERROR
       else STATUS_WARNING) := by
  have h := freshness_pure_functions
  refine ⟨h.2.1 staleSnapshot 0 1200 rfl (by norm_num), ?_⟩
  exact ((h.2.2.1 staleDisplay 1200).2
    { color := STATUS_ERROR, age_label := some 20 } h.2.2.2.2).1
